import Mathlib

/-!
Verification development for the C positive-sum auto-grader (src/script.js).

The grading core is embedded shallowly: the external JSCPP execution engine
is modelled as an abstract function producing either an exit code with the
captured stdout, or an error message with the stdout captured before the
failure.  Machine numbers are modelled as Int / Nat / Rat (the scores and
points in play are tiny, far from any JS precision boundary).  The two
source-text heuristics of the scorer are JS regular expressions; they are
embedded as executable character-list scanners with the exact semantics of
the regexes in the source.
-/

namespace Grader

/-- Character class of the JS regex escape backslash-s, restricted to the
ASCII whitespace characters that can occur in C source text. -/
def isSpaceChar (c : Char) : Bool :=
  c = ' ' || c = '\t' || c = '\n' || c = '\r' || c = '\x0b' || c = '\x0c'

/-- Character class of the JS regex escape backslash-w: letters, digits and
underscore.  Word boundaries of the heuristics are defined from it. -/
def isWordChar (c : Char) : Bool :=
  c.isAlpha || c.isDigit || c = '_'

/-- Outcome of one invocation of the external C execution engine
(JSCPP.run): either an exit code together with everything written to
stdout, or an error message together with the stdout captured before the
failure. -/
inductive EngineResult where
  | ok (exitCode : Int) (stdout : String)
  | err (msg : String) (capturedStdout : String)
deriving DecidableEq

/-- An execution engine: source text and stdin script to engine outcome. -/
def Engine : Type := String → String → EngineResult

/-- Mirror of the object resolved by runCProgram in src/script.js. -/
structure ExecutionOutcome where
  compiled : Bool
  compileOutput : String
  stdout : String
  stderr : String
deriving DecidableEq

/-- Diagnostic text built by runCProgram on success (src/script.js line 92). -/
def successDiag (exitCode : Int) : String :=
  "Compilation/execution successful (exit code " ++ toString exitCode ++ ")"

/-- Embedding of runCProgram (src/script.js lines 75-108): wraps the engine,
converting success into a compiled outcome with the success diagnostic and
any failure into a non-compiled outcome carrying the error message and the
partially captured stdout.  Totality of this function is the model of the
adapter never throwing past its boundary. -/
def runCProgram (engine : Engine) (cSource input : String) : ExecutionOutcome :=
  match engine cSource input with
  | EngineResult.ok exitCode stdout =>
      { compiled := true, compileOutput := successDiag exitCode
        stdout := stdout, stderr := "" }
  | EngineResult.err msg capturedStdout =>
      { compiled := false, compileOutput := msg
        stdout := capturedStdout, stderr := msg }

/-- Mirror of one test-case object of generateTestCases.  Test cases 1 and 2
carry no isValidationTest field in the source, which reads back as the JS
falsy undefined; that is modelled as false. -/
structure TestCase where
  name : String
  input : String
  expectedSum : Int
  points : Nat
  isValidationTest : Bool
deriving DecidableEq

/-- Embedding of generateTestCases (src/script.js lines 114-145). -/
def generateTestCases : List TestCase :=
  [ { name := "Test 1: 1 2 3 4 5", input := "1\n2\n3\n4\n5\n"
      expectedSum := 15, points := 25, isValidationTest := false }
  , { name := "Test 2: 10 20 30 40 50", input := "10\n20\n30\n40\n50\n"
      expectedSum := 150, points := 25, isValidationTest := false }
  , { name := "Test 3: קלט עם 0 ושלילי – בדיקת תקינות"
      input := "0\n-3\n5\n7\n8\n9\n10\n11\n"
      expectedSum := 39, points := 25, isValidationTest := true }
  , { name := "Test 4: רצף עם מספר ניסיונות שגויים"
      input := "-1\n0\n-2\n0\n3\n4\n5\n6\n7\n"
      expectedSum := 25, points := 25, isValidationTest := true } ]

/-- Numeric value of a decimal digit character. -/
def digitVal (c : Char) : Nat := c.toNat - '0'.toNat

/-- Base-10 value of a list of decimal digit characters. -/
def digitsToNat (ds : List Char) : Nat :=
  ds.foldl (fun a c => 10 * a + digitVal c) 0

/-- Value of one token matched by the regex dash-question digits-plus, as
parseInt(m, 10) computes it. -/
def parseTok (t : List Char) : Int :=
  match t with
  | '-' :: ds => -(digitsToNat ds : Int)
  | ds => (digitsToNat ds : Int)

/-- Fuel-indexed scan of stdout.match with the global regex: an optional
leading minus sign followed by one or more decimal digits.  At a digit the
whole digit run is taken as one token; at a minus sign directly followed by
a digit the minus and the digit run are taken as one token; any other
character is skipped.  Each step consumes at least one character, so a fuel
equal to the length of the list suffices. -/
def numTokensF : Nat → List Char → List (List Char)
  | 0, _ => []
  | _ + 1, [] => []
  | f + 1, c :: cs =>
    if c.isDigit then
      (c :: cs.takeWhile Char.isDigit) :: numTokensF f (cs.dropWhile Char.isDigit)
    else if c = '-' then
      match cs with
      | d :: ds =>
        if d.isDigit then
          ('-' :: d :: ds.takeWhile Char.isDigit) :: numTokensF f (ds.dropWhile Char.isDigit)
        else numTokensF f (d :: ds)
      | [] => []
    else numTokensF f cs

/-- All substrings of the text matched by the global regex, in order. -/
def numTokens (l : List Char) : List (List Char) :=
  numTokensF l.length l

/-- Mirror of the object returned by extractSumFromOutput. -/
structure ParsedOutput where
  sum : Option Int
  allNumbers : List Int
deriving DecidableEq

/-- Embedding of extractSumFromOutput (src/script.js lines 188-207): match
all occurrences of the number regex, parse them in order, and report the
last one as the sum; with no occurrence the sum is absent. -/
def extractSumFromOutput (stdout : String) : ParsedOutput :=
  if stdout = "" then { sum := none, allNumbers := [] }
  else
    let numbers := (numTokens stdout.data).map parseTok
    if h : numbers = [] then { sum := none, allNumbers := [] }
    else { sum := some (numbers.getLast h), allNumbers := numbers }

/-- Mirror of the verdict object returned by compareSums. -/
structure CompareResult where
  passed : Bool
  notes : String
deriving DecidableEq

/-- Note returned when no final number was found in the output
(src/script.js line 213). -/
def sumAbsentNote : String :=
  "לא הצלחתי למצוא מספר סופי בפלט. ודא שבסוף התוכנית אתה מדפיס את סכום 5 המספרים (רצוי בפורמט sum = X) ושאין הדפסות נוספות של מספרים אחרי הסכום."

/-- Note returned for a wrong reported sum (src/script.js line 220),
interpolating the expected and the received value. -/
def wrongSumNote (expectedSum reportedSum : Int) : String :=
  "הסכום שגוי. צפוי " ++ toString expectedSum ++ ", התקבל " ++ toString reportedSum ++ "."

/-- Note returned for a correct reported sum (src/script.js line 226). -/
def passNote : String := "עבר בהצלחה ✓"

/-- Embedding of compareSums (src/script.js lines 209-228). -/
def compareSums (expectedSum : Int) (parseResult : ParsedOutput) : CompareResult :=
  match parseResult.sum with
  | none => { passed := false, notes := sumAbsentNote }
  | some r =>
    if r ≠ expectedSum then { passed := false, notes := wrongSumNote expectedSum r }
    else { passed := true, notes := passNote }

/-- Mirror of one element of the results array built by runAllTests: the
spread test-case fields together with the verdict fields.  The success
branch of the source stores no compilationFailed property, which reads back
as the JS falsy undefined; that is modelled as false. -/
structure ScenarioResult where
  name : String
  input : String
  expectedSum : Int
  points : Nat
  isValidationTest : Bool
  passed : Bool
  reportedSum : Option Int
  notes : String
  compilationFailed : Bool
deriving DecidableEq

/-- Fallback note used by runAllTests when the compile output is the empty
string, hence JS-falsy (src/script.js line 164). -/
def compileFallbackNote : String := "הקוד לא הצליח להתקמפל"

/-- Embedding of runAllTests (src/script.js lines 151-182): run the
scenarios in order; on an engine failure push a single failure result and
break; on success push the interpreter and judge verdict and continue. -/
def runAllTests (engine : Engine) (studentCode : String) : List TestCase → List ScenarioResult
  | [] => []
  | tc :: rest =>
    let result := runCProgram engine studentCode tc.input
    if result.compiled = false then
      [ { name := tc.name, input := tc.input, expectedSum := tc.expectedSum
          points := tc.points, isValidationTest := tc.isValidationTest
          passed := false, reportedSum := none
          notes := if result.compileOutput = "" then compileFallbackNote else result.compileOutput
          compilationFailed := true } ]
    else
      let parseResult := extractSumFromOutput result.stdout
      let comparisonResult := compareSums tc.expectedSum parseResult
      { name := tc.name, input := tc.input, expectedSum := tc.expectedSum
        points := tc.points, isValidationTest := tc.isValidationTest
        passed := comparisonResult.passed, reportedSum := parseResult.sum
        notes := comparisonResult.notes
        compilationFailed := false } :: runAllTests engine studentCode rest

/-- Test of testResults.length > 0 && testResults[0].compilationFailed, the
guard shared by calculateScore, generateFeedback and displayResults. -/
def firstCompilationFailed : List ScenarioResult → Bool
  | [] => false
  | r :: _ => r.compilationFailed

/-- Word-boundary test for the position right after an optional previous
character: the JS backslash-b holds before a word character exactly when
the previous character is absent or not a word character. -/
def freshWord : Option Char → Bool
  | none => true
  | some p => !isWordChar p

/-- Match of the literal keyword at the head of the list, followed by a
word boundary (end of text or a non-word character). -/
def kwHere : List Char → List Char → Bool
  | [], [] => true
  | [], c :: _ => !isWordChar c
  | _ :: _, [] => false
  | k :: ks, c :: cs => k = c && kwHere ks cs

/-- Scan for the regex backslash-b group for, while or do, backslash-b,
carrying the previous character for the leading word boundary. -/
def scanKw : Option Char → List Char → Bool
  | _, [] => false
  | prev, c :: rest =>
    (freshWord prev &&
      (kwHere ('f' :: 'o' :: 'r' :: []) (c :: rest) ||
       kwHere ('w' :: 'h' :: 'i' :: 'l' :: 'e' :: []) (c :: rest) ||
       kwHere ('d' :: 'o' :: []) (c :: rest))) ||
    scanKw (some c) rest

/-- Embedding of the hasLoop heuristic (src/script.js lines 250 and 296):
the source matches the regex backslash-b group for, while or do,
backslash-b. -/
def hasLoop (codeSource : String) : Bool :=
  scanKw none codeSource.data

/-- Leading whitespace removal, the action of a greedy backslash-s star
followed by a non-space literal. -/
def dropSpaces (l : List Char) : List Char := l.dropWhile isSpaceChar

/-- Test that the list starts with the given character. -/
def headIs (c : Char) : List Char → Bool
  | [] => false
  | d :: _ => d = c

/-- Match of the regex alternative less-equal, spaces, zero at the head. -/
def altLe0 : List Char → Bool
  | '<' :: '=' :: r => headIs '0' (dropSpaces r)
  | _ => false

/-- Match of the regex alternative less-than, spaces, one at the head. -/
def altLt1 : List Char → Bool
  | '<' :: r => headIs '1' (dropSpaces r)
  | _ => false

/-- Match of the regex alternative num, spaces, less-equal, spaces, zero at
the head. -/
def altNumLe0 : List Char → Bool
  | 'n' :: 'u' :: 'm' :: r => altLe0 (dropSpaces r)
  | _ => false

/-- Match of the regex alternative num, spaces, less-than, spaces, one at
the head. -/
def altNumLt1 : List Char → Bool
  | 'n' :: 'u' :: 'm' :: r => altLt1 (dropSpaces r)
  | _ => false

/-- Alternation group of the first positivity regex of the source. -/
def alt1 (l : List Char) : Bool :=
  altLe0 l || altLt1 l || altNumLe0 l || altNumLt1 l

/-- Match of greater-than, spaces, zero at the head, the tail of the second
positivity regex of the source. -/
def altGt0 : List Char → Bool
  | '>' :: r => headIs '0' (dropSpaces r)
  | _ => false

/-- Scan for the regex fragment left-bracket-complement right-paren star
followed by the given alternation: some split point inside the parenthesis
body, before any closing parenthesis, satisfies the alternation. -/
def scanBody (altf : List Char → Bool) : List Char → Bool
  | [] => altf []
  | c :: rest => altf (c :: rest) || (c ≠ ')' && scanBody altf rest)

/-- Match of the regex fragment backslash-s star, open paren, body scan,
applied to the text right after the keyword if. -/
def afterIf (altf : List Char → Bool) (l : List Char) : Bool :=
  match dropSpaces l with
  | '(' :: rest => scanBody altf rest
  | _ => false

/-- Continuation after the leading i of the keyword if: the letter f must
follow, then the parenthesis part. -/
def ifTail (altf : List Char → Bool) : List Char → Bool
  | 'f' :: r2 => afterIf altf r2
  | _ => false

/-- Scan for backslash-b, if, backslash-s star, open paren, body, carrying
the previous character for the word boundary before if. -/
def scanIf (altf : List Char → Bool) : Option Char → List Char → Bool
  | _, [] => false
  | prev, c :: rest =>
    (c = 'i' && freshWord prev && ifTail altf rest) || scanIf altf (some c) rest

/-- Embedding of the hasPositiveCheck heuristic (src/script.js lines
253-255 and 301-303): the source matches the first positivity regex (if,
spaces, open paren, no closing paren, then one of the four alternatives
ending in less-equal zero or less-than one) or the second one (same prefix
then greater-than zero). -/
def hasPositiveCheck (codeSource : String) : Bool :=
  scanIf alt1 none codeSource.data || scanIf altGt0 none codeSource.data

/-- Sum of the points of all results, as testResults.reduce computes it. -/
def totalPoints (testResults : List ScenarioResult) : Nat :=
  (testResults.map (fun t => t.points)).sum

/-- Sum of the points of the passed results. -/
def earnedPoints (testResults : List ScenarioResult) : Nat :=
  ((testResults.filter (fun t => t.passed)).map (fun t => t.points)).sum

/-- Quality component of the score (src/script.js lines 248-259): start at
20, lose 10 without a loop keyword, lose 10 without a positivity check, and
floor at 0. -/
def qualityScoreInt (codeSource : String) : Int :=
  let q1 : Int := 20
  let q2 : Int := if hasLoop codeSource then q1 else q1 - 10
  let q3 : Int := if hasPositiveCheck codeSource then q2 else q2 - 10
  if q3 < 0 then 0 else q3

/-- JS Math.round on the (non-negative) values in play: the floor of the
argument plus one half. -/
def jsRound (q : ℚ) : ℤ := ⌊q + 1 / 2⌋

/-- Embedding of calculateScore (src/script.js lines 234-266): zero on a
first-result compilation failure, otherwise the rounded clamp of the
guarded functional component plus the quality component. -/
def calculateScore (testResults : List ScenarioResult) (codeSource : String) : Int :=
  if firstCompilationFailed testResults then 0
  else
    jsRound (max 0 (min 100 (
      (if 0 < totalPoints testResults then
        ((earnedPoints testResults : ℚ) / (totalPoints testResults : ℚ)) * 80
      else 0) + (qualityScoreInt codeSource : ℚ))))

/-- Fixed feedback for a compilation failure (src/script.js line 274). -/
def compileFailMsg : String :=
  "הקוד לא מתקמפל. אנא תקן את שגיאות הקומפילציה ונסה שוב."

/-- Fixed feedback for a perfect score (src/script.js line 278). -/
def perfectMsg : String :=
  "מצוין! קלטת 5 מספרים חיוביים, ביצעת בדיקות תקינות והסכום מחושב ומודפס בצורה נכונה. 🎉"

/-- Key phrase whose presence in a note marks a wrong-sum verdict
(src/script.js line 284). -/
def wrongSumKey : String := "הסכום שגוי"

/-- Hint pushed when some failed result carries a wrong-sum note. -/
def wrongSumHint : String :=
  "יש בעיה בחישוב או בהדפסת הסכום. בדוק שהקוד באמת מחשב את סכום 5 המספרים החיוביים בלבד."

/-- Hint pushed when some validation scenario failed. -/
def validationHint : String :=
  "נראה שהקוד לא מטפל כראוי במספרים שאינם חיוביים (0 או שליליים). עליך לבקש מהמשתמש להזין מחדש במקום לספור אותם כאחד מ־5 המספרים."

/-- Hint pushed when no loop keyword appears in the source. -/
def loopHint : String :=
  "נראה שאין שימוש בלולאה כדי לקלוט את המספרים. התרגיל דורש שימוש בלולאה עד שנקלטו 5 מספרים חיוביים."

/-- Hint pushed when no positivity check appears in the source. -/
def guardHint : String :=
  "חסרה בדיקת תקינות על כך שהמספר חיובי. ודא שאתה בודק שהמספר גדול מ־0 לפני שאתה מוסיף אותו לסכום ומתקדם לספירה."

/-- Banded generic message for a score of at least 80. -/
def band80 : String :=
  "עבודה טובה! רוב הבדיקות עברו, יש כמה נקודות קטנות לשיפור – בדוק את פירוט מקרי הבדיקה."

/-- Banded generic message for a score of at least 60. -/
def band60 : String :=
  "יש התקדמות יפה, אבל חלק מהבדיקות נכשלו. כדאי לבדוק את נושא בדיקת החיוביות וחישוב הסכום."

/-- Banded generic message for the remaining scores. -/
def bandLow : String :=
  "הקוד זקוק לעבודה נוספת. בדוק את לוגיקת הלולאה, תנאי החיוביות והאופן שבו אתה מחשב ומדפיס את הסכום."

/-- Match of the needle at the head of the haystack. -/
def startsWithL : List Char → List Char → Bool
  | [], _ => true
  | _ :: _, [] => false
  | a :: as, b :: bs => a = b && startsWithL as bs

/-- Occurrence of the needle anywhere in the haystack. -/
def hasSub (needle : List Char) : List Char → Bool
  | [] => startsWithL needle []
  | c :: rest => startsWithL needle (c :: rest) || hasSub needle rest

/-- The JS String.prototype.includes test on the embedded strings. -/
def strContains (hay needle : String) : Bool := hasSub needle.data hay.data

/-- Test of the wrong-sum detector of generateFeedback (src/script.js lines
283-285): some result failed with a non-empty note containing the wrong-sum
key phrase. -/
def anyWrongSum (testResults : List ScenarioResult) : Bool :=
  testResults.any (fun t => !t.passed && !(t.notes = "") && strContains t.notes wrongSumKey)

/-- Test of the validation detector of generateFeedback (src/script.js
lines 290-291): some validation scenario failed. -/
def failedValidation (testResults : List ScenarioResult) : Bool :=
  (testResults.filter (fun t => t.isValidationTest)).any (fun t => !t.passed)

/-- The feedback array built by the four sequential pushes of
generateFeedback, in push order. -/
def hintList (testResults : List ScenarioResult) (codeSource : String) : List String :=
  (if anyWrongSum testResults then [wrongSumHint] else []) ++
  (if failedValidation testResults then [validationHint] else []) ++
  (if hasLoop codeSource then [] else [loopHint]) ++
  (if hasPositiveCheck codeSource then [] else [guardHint])

/-- Banded generic fallback of generateFeedback (src/script.js lines
308-316). -/
def bandedMsg (score : Int) : String :=
  if score ≥ 80 then band80 else if score ≥ 60 then band60 else bandLow

/-- Embedding of generateFeedback (src/script.js lines 272-319). -/
def generateFeedback (testResults : List ScenarioResult) (score : Int) (codeSource : String) : String :=
  if firstCompilationFailed testResults then compileFailMsg
  else if score = 100 then perfectMsg
  else if hintList testResults codeSource = [] then bandedMsg score
  else String.intercalate (" ") (hintList testResults codeSource)

/-- Head of the list is a decimal digit. -/
def headIsDigit : List Char → Bool
  | [] => false
  | c :: _ => c.isDigit

/-- Token shape of the number regex: an optional leading minus sign
followed by one or more decimal digits. -/
def matchesPat : List Char → Bool
  | '-' :: ds => headIsDigit ds && ds.all Char.isDigit
  | l => headIsDigit l && l.all Char.isDigit

/-- The character (when present) directly before a token that starts with a
digit: it must be neither a digit (else the digit run would extend left)
nor a minus sign (else the minus sign would belong to the token). -/
def freshOk : Option Char → Bool
  | none => true
  | some p => !p.isDigit && p ≠ '-'

/-- Declarative reading of the specified extraction: the token list is the
sequence of all maximal substrings of the text matching the number pattern,
in order of occurrence.  SplitSpec prev s ts consumes s left to right given
the character prev just before s: characters outside tokens are never
digits, every token matches the pattern, and a token starting with a digit
cannot be preceded by a digit or a minus sign.  Together these force each
token to be maximal and force every matching substring to be covered by a
token. -/
inductive SplitSpec : Option Char → List Char → List (List Char) → Prop where
  | nil (prev : Option Char) : SplitSpec prev [] []
  | gap (prev : Option Char) (c : Char) (s : List Char) (ts : List (List Char)) :
      c.isDigit = false → SplitSpec (some c) s ts → SplitSpec prev (c :: s) ts
  | tok (prev : Option Char) (t s : List Char) (ts : List (List Char)) :
      matchesPat t = true →
      (headIsDigit t = true → freshOk prev = true) →
      SplitSpec t.getLast? s ts →
      SplitSpec prev (t ++ s) (t :: ts)

/-- Adapter success test driving the orchestrator spec. -/
def compiledOk (engine : Engine) (code : String) (tc : TestCase) : Bool :=
  (runCProgram engine code tc.input).compiled

/-- Scenario result for a scenario on which the adapter succeeded, built
from the Output Interpreter and the Judge, with compilationFailed false. -/
def succResult (engine : Engine) (code : String) (tc : TestCase) : ScenarioResult :=
  let parseResult := extractSumFromOutput (runCProgram engine code tc.input).stdout
  let comparisonResult := compareSums tc.expectedSum parseResult
  { name := tc.name, input := tc.input, expectedSum := tc.expectedSum
    points := tc.points, isValidationTest := tc.isValidationTest
    passed := comparisonResult.passed, reportedSum := parseResult.sum
    notes := comparisonResult.notes, compilationFailed := false }

/-- Scenario result for the first scenario on which the adapter failed:
passed false, reported sum absent, compilationFailed true, and the note is
the adapter diagnostic when non-empty, else the fixed fallback note. -/
def failResult (engine : Engine) (code : String) (tc : TestCase) : ScenarioResult :=
  { name := tc.name, input := tc.input, expectedSum := tc.expectedSum
    points := tc.points, isValidationTest := tc.isValidationTest
    passed := false, reportedSum := none
    notes := if (runCProgram engine code tc.input).compileOutput = "" then compileFallbackNote
             else (runCProgram engine code tc.input).compileOutput
    compilationFailed := true }

/-- Specified orchestrator behaviour: the successful results of the longest
prefix of scenarios on which the adapter succeeds, in catalog order,
followed by one failure result for the first failing scenario when one
exists; the scenarios after it are never processed. -/
def specRunAll (engine : Engine) (code : String) (tcs : List TestCase) : List ScenarioResult :=
  ((tcs.takeWhile (compiledOk engine code)).map (succResult engine code)) ++
  (match (tcs.dropWhile (compiledOk engine code)).head? with
   | none => []
   | some tc => [failResult engine code tc])

/-- Specified functional component: 80 times the passed points over the
total points (with rational division, which is 0 at total 0 exactly as the
guarded source expression is). -/
def specFunctional (testResults : List ScenarioResult) : ℚ :=
  80 * (earnedPoints testResults : ℚ) / (totalPoints testResults : ℚ)

/-- Specified quality component: start at 20, lose 10 without an iteration
keyword, lose 10 without a positivity guard, floored at 0. -/
def specQuality (codeSource : String) : ℚ :=
  max 0 ((20 : ℚ) - (if hasLoop codeSource then 0 else 10) -
    (if hasPositiveCheck codeSource then 0 else 10))

/-- Specified score: round the clamp of functional plus quality to 0..100. -/
def specScore (testResults : List ScenarioResult) (codeSource : String) : Int :=
  jsRound (max 0 (min 100 (specFunctional testResults + specQuality codeSource)))

/-- All characters are regex whitespace. -/
def allSpace (l : List Char) : Bool := l.all isSpaceChar

/-- No character is a closing parenthesis. -/
def noClose (l : List Char) : Bool := l.all (fun c => c ≠ ')')

/-- The character just before an occurrence, described by the prefix before
the occurrence and the character before that prefix: a word boundary holds
when the last character of the prefix is not a word character, falling back
to the earlier character when the prefix is empty. -/
def boundaryAt (prev : Option Char) (a : List Char) : Prop :=
  (∀ c, a.getLast? = some c → isWordChar c = false) ∧
  (a.getLast? = none → freshWord prev = true)

/-- Word boundary before an occurrence at the very start of the text. -/
def boundaryPre (pre : List Char) : Prop :=
  ∀ c, pre.getLast? = some c → isWordChar c = false

/-- Declarative tails recognized after the parenthesis body by the two
positivity regexes of the source: less-equal then spaces then zero,
less-than then spaces then one, or greater-than then spaces then zero. -/
def AltTail (tail : List Char) : Prop :=
  (∃ sp rest, allSpace sp = true ∧ tail = '<' :: '=' :: (sp ++ '0' :: rest)) ∨
  (∃ sp rest, allSpace sp = true ∧ tail = '<' :: (sp ++ '1' :: rest)) ∨
  (∃ sp rest, allSpace sp = true ∧ tail = '>' :: (sp ++ '0' :: rest))

/-- Declarative reading of the positivity heuristic actually implemented:
somewhere in the text, the keyword if at a word boundary, then optional
whitespace, an opening parenthesis, a span free of closing parentheses, and
one of the three recognized comparison tails. -/
def GuardMatch (s : List Char) : Prop :=
  ∃ pre ws mid tail, boundaryPre pre ∧ allSpace ws = true ∧ noClose mid = true ∧
    AltTail tail ∧ s = pre ++ 'i' :: 'f' :: (ws ++ '(' :: (mid ++ tail))

/-- Comparison operators named by the claim: less-equal, less-than or
greater-than. -/
def ClaimOp (op : List Char) : Prop :=
  op = '<' :: '=' :: [] ∨ op = '<' :: [] ∨ op = '>' :: []

/-- Bounds named by the claim: zero or one. -/
def ClaimNum (c : Char) : Prop := c = '0' ∨ c = '1'

/-- The claimed positivity condition: a conditional test comparing a value
against 0 or 1 using one of the three operators, read structurally as an if
at a word boundary, optional whitespace, an opening parenthesis, a span
free of closing parentheses, one of the operators, optional whitespace and
the bound. -/
def ClaimGuard (s : List Char) : Prop :=
  ∃ pre ws mid op sp n rest, boundaryPre pre ∧ allSpace ws = true ∧
    noClose mid = true ∧ ClaimOp op ∧ allSpace sp = true ∧ ClaimNum n ∧
    s = pre ++ 'i' :: 'f' :: (ws ++ '(' :: (mid ++ op ++ sp ++ n :: rest))

/-- Engine that always succeeds with a fixed exit code and stdout. -/
def okEngine (exitCode : Int) (out : String) : Engine :=
  fun _ _ => EngineResult.ok exitCode out

/-- Engine that always fails with a fixed message and a fixed partial
capture. -/
def errEngine (msg captured : String) : Engine :=
  fun _ _ => EngineResult.err msg captured

/-- Engine that succeeds on the stdin script of the first catalog scenario
and fails on every other script: a model of a submission whose execution
traps only on later scenario inputs. -/
def secondFailEngine : Engine :=
  fun _ input =>
    if input = "1\n2\n3\n4\n5\n" then EngineResult.ok 0 ("sum = 15")
    else EngineResult.err ("timeout") ("")

/-- Engine failing with an empty diagnostic message. -/
def emptyDiagEngine : Engine := fun _ _ => EngineResult.err ("") ("")

/-- Source containing a conditional comparing against 1 with greater-than,
which the claimed positivity condition accepts but the implemented
heuristic does not. -/
def srcNoGuard : String := "if (x > 1) y = 2;"

/-- Source containing a conditional comparing against 0 with greater-than,
accepted by the implemented heuristic. -/
def srcWithGuard : String := "if (x > 0) y = 2;"

theorem jsRound_eq (q : ℚ) (z : ℤ) (h1 : (z : ℚ) ≤ q + 1 / 2) (h2 : q + 1 / 2 < z + 1) :
    jsRound q = z := by
  unfold jsRound
  exact Int.floor_eq_iff.mpr ⟨h1, h2⟩

theorem lengthDropWhileLe (p : Char → Bool) : ∀ l : List Char, (l.dropWhile p).length ≤ l.length := by
  intro l
  induction l with
  | nil => simp
  | cons a l ih =>
    rw [List.dropWhile_cons]
    by_cases hp : p a
    · rw [if_pos hp]
      exact le_trans ih (Nat.le_succ _)
    · rw [if_neg hp]

theorem dropWhileHeadNot (p : Char → Bool) :
    ∀ (l : List Char) (c : Char) (cs : List Char), l.dropWhile p = c :: cs → p c = false := by
  intro l
  induction l with
  | nil => intro c cs h; simp [List.dropWhile] at h
  | cons a l ih =>
    intro c cs h
    rw [List.dropWhile_cons] at h
    by_cases hp : p a
    · rw [if_pos hp] at h
      exact ih c cs h
    · rw [if_neg hp] at h
      injection h with h1 _
      subst h1
      simpa using hp

theorem takeWhileAll (p : Char → Bool) (l : List Char) : (l.takeWhile p).all p = true := by
  rw [List.all_eq_true]
  intro x hx
  exact List.mem_takeWhile_imp hx

theorem dropWhileAppendAll (p : Char → Bool) :
    ∀ (ws l : List Char), ws.all p = true → (ws ++ l).dropWhile p = l.dropWhile p := by
  intro ws
  induction ws with
  | nil => intro l _; rfl
  | cons a ws ih =>
    intro l h
    rw [List.all_cons, Bool.and_eq_true] at h
    rw [List.cons_append, List.dropWhile_cons, if_pos h.1]
    exact ih l h.2

theorem extract_allNumbers (s : String) :
    (extractSumFromOutput s).allNumbers = (numTokens s.data).map parseTok := by
  unfold extractSumFromOutput
  by_cases hs : s = ""
  · rw [if_pos hs]
    subst hs
    rfl
  · rw [if_neg hs]
    by_cases h : (numTokens s.data).map parseTok = []
    · rw [dif_pos h, h]
    · rw [dif_neg h]

theorem extract_sum_getLast (s : String) :
    (extractSumFromOutput s).sum = ((numTokens s.data).map parseTok).getLast? := by
  unfold extractSumFromOutput
  by_cases hs : s = ""
  · rw [if_pos hs]
    subst hs
    rfl
  · rw [if_neg hs]
    by_cases h : (numTokens s.data).map parseTok = []
    · rw [dif_pos h, h]
      rfl
    · rw [dif_neg h]
      exact (List.getLast?_eq_getLast _ h).symm

theorem numTokensF_of_no_digit :
    ∀ (f : Nat) (l : List Char), l.all (fun c => !c.isDigit) = true → numTokensF f l = [] := by
  intro f
  induction f with
  | zero => intro l _; rfl
  | succ f ih =>
    intro l h
    cases l with
    | nil => rfl
    | cons c cs =>
      rw [List.all_cons, Bool.and_eq_true] at h
      have hc : c.isDigit = false := by simpa using h.1
      by_cases hdash : c = '-'
      · subst hdash
        cases cs with
        | nil => simp [numTokensF, hc]
        | cons d ds =>
          have h2 := h.2
          rw [List.all_cons, Bool.and_eq_true] at h2
          have hd : d.isDigit = false := by simpa using h2.1
          simpa [numTokensF, hc, hd] using ih (d :: ds) h.2
      · simpa [numTokensF, hc, hdash] using ih cs h.2

theorem matchesPat_digits (c : Char) (ds : List Char) (hc : c.isDigit = true)
    (hds : ds.all Char.isDigit = true) : matchesPat (c :: ds) = true := by
  have hne : c ≠ '-' := by
    intro h
    rw [h] at hc
    exact absurd hc (by decide)
  unfold matchesPat
  split
  · rename_i heq
    injection heq with h1 _
    exact absurd h1 hne
  · simp [headIsDigit, hc, List.all_cons, hds]

theorem matchesPat_negative (d : Char) (ds : List Char) (hd : d.isDigit = true)
    (hds : ds.all Char.isDigit = true) : matchesPat ('-' :: d :: ds) = true := by
  unfold matchesPat
  simp [headIsDigit, hd, List.all_cons, hds]

theorem freshOk_dropWhile (cs : List Char) (prev : Option Char) :
    headIsDigit (cs.dropWhile Char.isDigit) = true → freshOk prev = true := by
  intro hh
  exfalso
  cases hdw : cs.dropWhile Char.isDigit with
  | nil =>
    rw [hdw] at hh
    simp [headIsDigit] at hh
  | cons e es =>
    have he := dropWhileHeadNot Char.isDigit cs e es hdw
    rw [hdw] at hh
    simp [headIsDigit, he] at hh

theorem numTokensF_splitSpec :
    ∀ (f : Nat) (l : List Char) (prev : Option Char), l.length ≤ f →
      (headIsDigit l = true → freshOk prev = true) →
      SplitSpec prev l (numTokensF f l) := by
  intro f
  induction f with
  | zero =>
    intro l prev hlen _
    have hl : l = [] := List.length_eq_zero.mp (Nat.le_zero.mp hlen)
    subst hl
    exact SplitSpec.nil prev
  | succ f ih =>
    intro l prev hlen hfresh
    cases l with
    | nil => exact SplitSpec.nil prev
    | cons c cs =>
      have hlen2 : cs.length ≤ f := Nat.succ_le_succ_iff.mp hlen
      by_cases hc : c.isDigit
      · have htok : numTokensF (f + 1) (c :: cs) =
            (c :: cs.takeWhile Char.isDigit) :: numTokensF f (cs.dropWhile Char.isDigit) := by
          simp [numTokensF, hc]
        have hsplit : c :: cs = (c :: cs.takeWhile Char.isDigit) ++ cs.dropWhile Char.isDigit := by
          rw [List.cons_append, List.takeWhile_append_dropWhile]
        rw [htok, hsplit]
        refine SplitSpec.tok prev _ _ _ (matchesPat_digits c _ hc (takeWhileAll _ _))
          (fun _ => hfresh (by simp [headIsDigit, hc])) ?_
        exact ih (cs.dropWhile Char.isDigit) _
          (le_trans (lengthDropWhileLe Char.isDigit cs) hlen2)
          (freshOk_dropWhile cs _)
      · by_cases hdash : c = '-'
        · subst hdash
          cases cs with
          | nil =>
            have hval : numTokensF (f + 1) ('-' :: []) = [] := by simp [numTokensF, hc]
            rw [hval]
            exact SplitSpec.gap prev '-' [] [] (by decide) (SplitSpec.nil _)
          | cons d ds =>
            by_cases hd : d.isDigit
            · have htok : numTokensF (f + 1) ('-' :: d :: ds) =
                  ('-' :: d :: ds.takeWhile Char.isDigit) ::
                    numTokensF f (ds.dropWhile Char.isDigit) := by
                simp [numTokensF, hc, hd]
              have hsplit : '-' :: d :: ds =
                  ('-' :: d :: ds.takeWhile Char.isDigit) ++ ds.dropWhile Char.isDigit := by
                rw [List.cons_append, List.cons_append, List.takeWhile_append_dropWhile]
              rw [htok, hsplit]
              refine SplitSpec.tok prev _ _ _ (matchesPat_negative d _ hd (takeWhileAll _ _))
                (fun hcontra => ?_) ?_
              · exfalso
                simp [headIsDigit] at hcontra
              · exact ih (ds.dropWhile Char.isDigit) _
                  (le_trans (lengthDropWhileLe Char.isDigit ds) (Nat.le_of_succ_le hlen2))
                  (freshOk_dropWhile ds _)
            · have hval : numTokensF (f + 1) ('-' :: d :: ds) = numTokensF f (d :: ds) := by
                simp [numTokensF, hc, hd]
              rw [hval]
              refine SplitSpec.gap prev '-' (d :: ds) _ (by decide) ?_
              exact ih (d :: ds) (some '-') hlen2 (fun hh => by simp [headIsDigit, hd] at hh)
        · have hval : numTokensF (f + 1) (c :: cs) = numTokensF f cs := by
            simp [numTokensF, hc, hdash]
          rw [hval]
          refine SplitSpec.gap prev c cs _ (by simpa using hc) ?_
          exact ih cs (some c) hlen2
            (fun _ => by simp [freshOk, hc, hdash])

theorem numTokens_splitSpec (l : List Char) : SplitSpec none l (numTokens l) :=
  numTokensF_splitSpec l.length l none le_rfl (fun _ => rfl)

/-- C4: the Output Interpreter scans the text for all maximal substrings
matching an optional leading minus sign followed by decimal digits
(SplitSpec states the decomposition declaratively), parses them in order
into allNumbers, and reports the last one as the sum, absent when there is
none; on the concrete stdout text with 3, 7 and then sum equal to 10 it
reports sum 10 and number list 3, 7, 10. -/
theorem C4_extraction :
    (∀ s : String, SplitSpec none s.data (numTokens s.data) ∧
      (extractSumFromOutput s).allNumbers = (numTokens s.data).map parseTok ∧
      (extractSumFromOutput s).sum = ((numTokens s.data).map parseTok).getLast?) ∧
    extractSumFromOutput ("a=3\nb=7\nsum = 10\n") =
      { sum := some 10, allNumbers := [3, 7, 10] } := by
  refine ⟨?_, by decide⟩
  intro s
  exact ⟨numTokens_splitSpec s.data, extract_allNumbers s, extract_sum_getLast s⟩

/-- C6: the Execution Adapter never throws past its boundary: for every
engine, source and stdin script it resolves to an ExecutionOutcome value;
on engine success the outcome is compiled with the captured stdout and a
diagnostic containing the exit code, and on engine failure it is
not compiled, with the engine message as diagnostic and the stdout captured
before the failure. -/
theorem C6_adapter_total (engine : Engine) (src input : String) :
    (∀ (exitCode : Int) (out : String), engine src input = EngineResult.ok exitCode out →
      runCProgram engine src input =
        { compiled := true, compileOutput := successDiag exitCode, stdout := out, stderr := "" } ∧
      ∃ l1 l2, (successDiag exitCode).data = l1 ++ (toString exitCode).data ++ l2) ∧
    (∀ (msg captured : String), engine src input = EngineResult.err msg captured →
      runCProgram engine src input =
        { compiled := false, compileOutput := msg, stdout := captured, stderr := msg }) := by
  constructor
  · intro exitCode out h
    constructor
    · unfold runCProgram
      rw [h]
    · refine ⟨("Compilation/execution successful (exit code ").data, (")").data, ?_⟩
      unfold successDiag
      rw [String.data_append, String.data_append]
  · intro msg captured h
    unfold runCProgram
    rw [h]

theorem C6_adapter_total_witness :
    runCProgram (okEngine 0 ("15")) ("int main;") ("1\n") =
      { compiled := true, compileOutput := successDiag 0, stdout := "15", stderr := "" } ∧
    runCProgram (errEngine ("boom") ("x")) ("int main;") ("1\n") =
      { compiled := false, compileOutput := "boom", stdout := "x", stderr := "boom" } :=
  ⟨((C6_adapter_total (okEngine 0 ("15")) ("int main;") ("1\n")).1 0 ("15") rfl).1,
   (C6_adapter_total (errEngine ("boom") ("x")) ("int main;") ("1\n")).2 ("boom") ("x") rfl⟩

/-- C5: the Judge fails with the fixed instruction note when the reported
sum is absent; on a present but different sum it fails with a note carrying
both the expected and the reported value; and it passes exactly when the
reported sum is present and equal to the expected one.  The concrete
instance compares 15 against a report of 14. -/
theorem C5_judge :
    (∀ (e : Int) (p : ParsedOutput), p.sum = none →
      compareSums e p = { passed := false, notes := sumAbsentNote }) ∧
    (∀ (e r : Int) (ns : List Int), r ≠ e →
      (compareSums e { sum := some r, allNumbers := ns }).passed = false ∧
      (∃ l1 l2, (compareSums e { sum := some r, allNumbers := ns }).notes.data =
        l1 ++ (toString e).data ++ l2) ∧
      (∃ l1 l2, (compareSums e { sum := some r, allNumbers := ns }).notes.data =
        l1 ++ (toString r).data ++ l2)) ∧
    (∀ (e : Int) (p : ParsedOutput), (compareSums e p).passed = true ↔ p.sum = some e) ∧
    ((compareSums 15 { sum := some 14, allNumbers := [14] }).passed = false ∧
      strContains (compareSums 15 { sum := some 14, allNumbers := [14] }).notes ("15") = true ∧
      strContains (compareSums 15 { sum := some 14, allNumbers := [14] }).notes ("14") = true) := by
  refine ⟨?_, ?_, ?_, by decide⟩
  · intro e p h
    unfold compareSums
    rw [h]
  · intro e r ns h
    have hres : compareSums e { sum := some r, allNumbers := ns } =
        { passed := false, notes := wrongSumNote e r } := by
      unfold compareSums
      simp only [if_pos h]
    rw [hres]
    refine ⟨rfl, ?_, ?_⟩
    · refine ⟨("הסכום שגוי. צפוי ").data,
        ((", התקבל " ++ toString r ++ ".")).data, ?_⟩
      show (wrongSumNote e r).data = _
      unfold wrongSumNote
      simp only [String.data_append, List.append_assoc]
    · refine ⟨(("הסכום שגוי. צפוי " ++ toString e ++ ", התקבל ")).data, (".").data, ?_⟩
      show (wrongSumNote e r).data = _
      unfold wrongSumNote
      simp only [String.data_append, List.append_assoc]
  · intro e p
    cases hp : p.sum with
    | none =>
      have hres : compareSums e p = { passed := false, notes := sumAbsentNote } := by
        unfold compareSums
        rw [hp]
      rw [hres]
      simp
    | some r =>
      have hres : compareSums e p =
          if r ≠ e then { passed := false, notes := wrongSumNote e r }
          else { passed := true, notes := passNote } := by
        unfold compareSums
        rw [hp]
      rw [hres]
      by_cases h : r = e
      · subst h
        rw [if_neg (by simp)]
        simp
      · rw [if_pos h]
        simp [h]

theorem C5_judge_witness :
    compareSums 15 { sum := none, allNumbers := [] } = { passed := false, notes := sumAbsentNote } ∧
    (compareSums 15 { sum := some 14, allNumbers := [14] }).passed = false :=
  ⟨C5_judge.1 15 { sum := none, allNumbers := [] } rfl,
   (C5_judge.2.1 15 14 [14] (by decide)).1⟩

/-- C9: the Output Interpreter invariant: the reported sum is absent
exactly when the number list is empty and otherwise equals its last
element; the empty text and any text free of digits give an absent sum and
an empty list. -/
theorem C9_parser_invariant :
    (∀ s : String,
      ((extractSumFromOutput s).sum = none ↔ (extractSumFromOutput s).allNumbers = []) ∧
      (extractSumFromOutput s).sum = (extractSumFromOutput s).allNumbers.getLast?) ∧
    extractSumFromOutput ("") = { sum := none, allNumbers := [] } ∧
    (∀ s : String, s.data.all (fun c => !c.isDigit) = true →
      extractSumFromOutput s = { sum := none, allNumbers := [] }) := by
  refine ⟨?_, by decide, ?_⟩
  · intro s
    have h1 := extract_allNumbers s
    have h2 := extract_sum_getLast s
    constructor
    · rw [h1, h2]
      constructor
      · intro h
        exact List.getLast?_eq_none_iff.mp h
      · intro h
        rw [h]
        rfl
    · rw [h1, h2]
  · intro s h
    have htok : numTokens s.data = [] := numTokensF_of_no_digit s.data.length s.data h
    unfold extractSumFromOutput
    by_cases hs : s = ""
    · rw [if_pos hs]
    · rw [if_neg hs]
      rw [dif_pos (by rw [htok]; rfl)]

theorem C9_parser_invariant_witness :
    extractSumFromOutput ("abc") = { sum := none, allNumbers := [] } :=
  C9_parser_invariant.2.2 ("abc") (by decide)

/-- C10: on the empty result sequence the score is well defined: the
functional component is 0 thanks to the positivity guard on the total
points, and the score equals the quality component, an integer between 0
and 20. -/
theorem C10_empty_results (codeSource : String) :
    calculateScore [] codeSource = qualityScoreInt codeSource ∧
    0 ≤ qualityScoreInt codeSource ∧ qualityScoreInt codeSource ≤ 20 := by
  have hq : 0 ≤ qualityScoreInt codeSource ∧ qualityScoreInt codeSource ≤ 20 := by
    unfold qualityScoreInt
    by_cases h1 : hasLoop codeSource <;> by_cases h2 : hasPositiveCheck codeSource <;>
      simp [h1, h2]
  refine ⟨?_, hq⟩
  unfold calculateScore
  rw [if_neg (by simp [firstCompilationFailed])]
  rw [if_neg (by simp [totalPoints])]
  have e1 : min (100 : ℚ) ((0 : ℚ) + (qualityScoreInt codeSource : ℚ)) =
      (qualityScoreInt codeSource : ℚ) := by
    rw [zero_add]
    refine min_eq_right ?_
    exact_mod_cast hq.2.trans (by norm_num)
  have e2 : max (0 : ℚ) ((qualityScoreInt codeSource : ℚ)) =
      (qualityScoreInt codeSource : ℚ) := by
    refine max_eq_right ?_
    exact_mod_cast hq.1
  show jsRound (max (0 : ℚ) (min (100 : ℚ) ((0 : ℚ) + (qualityScoreInt codeSource : ℚ)))) =
    qualityScoreInt codeSource
  rw [e1, e2]
  exact jsRound_eq _ _ (by linarith) (by linarith)

theorem calculateScore_eval (rs : List ScenarioResult) (src : String) (e t : Nat) (q : Int)
    (h0 : firstCompilationFailed rs = false) (he : earnedPoints rs = e)
    (ht : totalPoints rs = t) (hq : qualityScoreInt src = q) :
    calculateScore rs src =
      jsRound (max 0 (min 100
        ((if 0 < t then (e : ℚ) / (t : ℚ) * 80 else 0) + (q : ℚ)))) := by
  unfold calculateScore
  rw [if_neg (by simp [h0]), he, ht, hq]

theorem runAllTests_fail_cons (engine : Engine) (code : String) (tc : TestCase)
    (rest : List TestCase) (hc : (runCProgram engine code tc.input).compiled = false) :
    runAllTests engine code (tc :: rest) = [failResult engine code tc] := by
  simp only [runAllTests]
  rw [if_pos hc]
  rfl

theorem runAllTests_ok_cons (engine : Engine) (code : String) (tc : TestCase)
    (rest : List TestCase) (hc : (runCProgram engine code tc.input).compiled = true) :
    runAllTests engine code (tc :: rest) =
      succResult engine code tc :: runAllTests engine code rest := by
  simp only [runAllTests]
  rw [if_neg (by simp [hc])]
  rfl

theorem runAllTests_failed_is_last (engine : Engine) (code : String) :
    ∀ (tcs : List TestCase) (i : Nat) (r : ScenarioResult),
      (runAllTests engine code tcs)[i]? = some r → r.compilationFailed = true →
      i + 1 = (runAllTests engine code tcs).length := by
  intro tcs
  induction tcs with
  | nil =>
    intro i r hget _
    simp [runAllTests] at hget
  | cons tc rest ih =>
    intro i r hget hcf
    by_cases hc : (runCProgram engine code tc.input).compiled = false
    · rw [runAllTests_fail_cons engine code tc rest hc] at hget ⊢
      cases i with
      | zero => rfl
      | succ j => simp at hget
    · have hc' : (runCProgram engine code tc.input).compiled = true := by
        simpa using hc
      rw [runAllTests_ok_cons engine code tc rest hc'] at hget ⊢
      cases i with
      | zero =>
        exfalso
        rw [List.getElem?_cons_zero] at hget
        injection hget with hr
        rw [← hr] at hcf
        exact absurd hcf (by simp [succResult])
      | succ j =>
        rw [List.getElem?_cons_succ] at hget
        have := ih j r hget hcf
        simp only [List.length_cons]
        omega

theorem runAllTests_first_failed (engine : Engine) (code : String) (tcs : List TestCase)
    (h : firstCompilationFailed (runAllTests engine code tcs) = true) :
    (runAllTests engine code tcs).length = 1 ∧
    calculateScore (runAllTests engine code tcs) code = 0 ∧
    generateFeedback (runAllTests engine code tcs)
      (calculateScore (runAllTests engine code tcs) code) code = compileFailMsg := by
  cases tcs with
  | nil => simp [runAllTests, firstCompilationFailed] at h
  | cons tc rest =>
    by_cases hc : (runCProgram engine code tc.input).compiled = false
    · rw [runAllTests_fail_cons engine code tc rest hc] at h ⊢
      refine ⟨rfl, ?_, ?_⟩
      · unfold calculateScore
        rw [if_pos h]
      · unfold generateFeedback
        rw [if_pos h]
    · have hc' : (runCProgram engine code tc.input).compiled = true := by
        simpa using hc
      rw [runAllTests_ok_cons engine code tc rest hc'] at h
      exact absurd h (by simp [firstCompilationFailed, succResult])

/-- C1 (amended): a ScenarioResult with compilationFailed true is always
the final result of the run, execution stopping immediately after it; when
it is the first result it is the sole result, the score is 0 and the
feedback is the fixed compile-failure message.  (An execution failure on a
later scenario still stops the run but keeps the earlier successful
results, and the score is then computed from them.) -/
theorem C1_failure_terminal (engine : Engine) (code : String) (tcs : List TestCase) :
    (∀ (i : Nat) (r : ScenarioResult),
      (runAllTests engine code tcs)[i]? = some r → r.compilationFailed = true →
      i + 1 = (runAllTests engine code tcs).length) ∧
    (firstCompilationFailed (runAllTests engine code tcs) = true →
      (runAllTests engine code tcs).length = 1 ∧
      calculateScore (runAllTests engine code tcs) code = 0 ∧
      generateFeedback (runAllTests engine code tcs)
        (calculateScore (runAllTests engine code tcs) code) code = compileFailMsg) :=
  ⟨runAllTests_failed_is_last engine code tcs,
   runAllTests_first_failed engine code tcs⟩

theorem C1_failure_terminal_witness :
    0 + 1 = (runAllTests (errEngine ("boom") ("")) ("int main;") generateTestCases).length ∧
    ((runAllTests (errEngine ("boom") ("")) ("int main;") generateTestCases).length = 1 ∧
      calculateScore (runAllTests (errEngine ("boom") ("")) ("int main;") generateTestCases)
        ("int main;") = 0 ∧
      generateFeedback (runAllTests (errEngine ("boom") ("")) ("int main;") generateTestCases)
        (calculateScore (runAllTests (errEngine ("boom") ("")) ("int main;") generateTestCases)
          ("int main;")) ("int main;") = compileFailMsg) :=
  ⟨(C1_failure_terminal (errEngine ("boom") ("")) ("int main;") generateTestCases).1 0
      { name := "Test 1: 1 2 3 4 5", input := "1\n2\n3\n4\n5\n", expectedSum := 15
        points := 25, isValidationTest := false, passed := false, reportedSum := none
        notes := "boom", compilationFailed := true } (by decide) rfl,
   (C1_failure_terminal (errEngine ("boom") ("")) ("int main;") generateTestCases).2 (by decide)⟩

/-- C1 counterexample: with an engine that succeeds on the stdin script of
the first catalog scenario and fails on the second, the run yields two
results, the second having compilationFailed true, and the score is 40:
a compilationFailed result is not always the sole result and the score is
not forced to 0 by it. -/
theorem C1_counterexample :
    (runAllTests secondFailEngine ("int main;") generateTestCases).map
      (fun r => r.compilationFailed) = [false, true] ∧
    (runAllTests secondFailEngine ("int main;") generateTestCases).length = 2 ∧
    calculateScore (runAllTests secondFailEngine ("int main;") generateTestCases)
      ("int main;") = 40 := by
  refine ⟨by decide, by decide, ?_⟩
  rw [calculateScore_eval _ _ 25 50 0 (by decide) (by decide) (by decide) (by decide)]
  rw [if_pos (by norm_num : (0 : ℕ) < 50)]
  have harg : ((25 : ℕ) : ℚ) / ((50 : ℕ) : ℚ) * 80 + ((0 : ℤ) : ℚ) = 40 := by
    push_cast
    norm_num
  rw [harg]
  rw [show max (0 : ℚ) (min 100 40) = 40 by norm_num]
  exact jsRound_eq _ _ (by norm_num) (by norm_num)

theorem runAllTests_eq_spec (engine : Engine) (code : String) :
    ∀ tcs : List TestCase, runAllTests engine code tcs = specRunAll engine code tcs := by
  intro tcs
  induction tcs with
  | nil => rfl
  | cons tc rest ih =>
    by_cases h : compiledOk engine code tc
    · have h' : (runCProgram engine code tc.input).compiled = true := h
      rw [runAllTests_ok_cons engine code tc rest h', ih]
      unfold specRunAll
      rw [List.takeWhile_cons, List.dropWhile_cons, if_pos h, if_pos h]
      rw [List.map_cons, List.cons_append]
    · have h' : (runCProgram engine code tc.input).compiled = false := by
        simpa [compiledOk] using h
      rw [runAllTests_fail_cons engine code tc rest h']
      unfold specRunAll
      rw [List.takeWhile_cons, List.dropWhile_cons, if_neg h, if_neg h]
      rfl

/-- C2 (amended): the orchestrator processes scenarios in catalog order:
the results are the Output Interpreter and Judge results, with
compilationFailed false, for the longest prefix of scenarios on which the
adapter succeeds, followed, when some scenario fails, by exactly one
failure result for the first failing scenario, with passed false, reported
sum absent, compilationFailed true and note equal to the adapter diagnostic
text when that text is non-empty and to a fixed fallback message otherwise;
no scenario after the failing one is processed. -/
theorem C2_orchestrator (engine : Engine) (code : String) (tcs : List TestCase) :
    runAllTests engine code tcs = specRunAll engine code tcs :=
  runAllTests_eq_spec engine code tcs

/-- C2 counterexample: with an engine failing with an empty diagnostic
text, the note of the sole result is the fixed fallback text rather than
the empty adapter diagnostic, refuting note-equals-diagnostic as stated. -/
theorem C2_counterexample :
    (runAllTests emptyDiagEngine ("int main;") generateTestCases).map
      (fun r => r.notes) = [compileFallbackNote] ∧
    ¬ (runAllTests emptyDiagEngine ("int main;") generateTestCases).map
      (fun r => r.notes) = [("")] := by
  constructor
  · decide
  · decide

/-- C3: when the first result is not a compilation failure, the score
equals the rounded clamp to 0..100 of the specified functional component
(80 times the passed points over the total points) plus the specified
quality component (20, minus 10 without a loop keyword, minus 10 without a
positivity-guard pattern, floored at 0); consequently the score is an
integer between 0 and 100. -/
theorem C3_score_formula (testResults : List ScenarioResult) (codeSource : String)
    (h : firstCompilationFailed testResults = false) :
    calculateScore testResults codeSource = specScore testResults codeSource ∧
    0 ≤ calculateScore testResults codeSource ∧
    calculateScore testResults codeSource ≤ 100 := by
  have hfun : (if 0 < totalPoints testResults then
      ((earnedPoints testResults : ℚ) / (totalPoints testResults : ℚ)) * 80 else 0) =
      specFunctional testResults := by
    unfold specFunctional
    by_cases ht : 0 < totalPoints testResults
    · rw [if_pos ht]
      ring
    · rw [if_neg ht]
      have ht0 : totalPoints testResults = 0 := by omega
      rw [ht0]
      push_cast
      rw [div_zero]
  have hqual : ((qualityScoreInt codeSource : ℤ) : ℚ) = specQuality codeSource := by
    unfold qualityScoreInt specQuality
    by_cases h1 : hasLoop codeSource <;> by_cases h2 : hasPositiveCheck codeSource <;>
      simp [h1, h2] <;> norm_num
  have hcal : calculateScore testResults codeSource =
      jsRound (max 0 (min 100 (specFunctional testResults + specQuality codeSource))) := by
    unfold calculateScore
    rw [if_neg (by simp [h]), hfun, hqual]
  have hX0 : (0 : ℚ) ≤ max 0 (min 100 (specFunctional testResults + specQuality codeSource)) :=
    le_max_left _ _
  have hX100 : max 0 (min 100 (specFunctional testResults + specQuality codeSource)) ≤ 100 := by
    apply max_le (by norm_num)
    exact min_le_left _ _
  refine ⟨hcal, ?_, ?_⟩
  · rw [hcal]
    unfold jsRound
    rw [Int.le_floor]
    push_cast
    linarith
  · rw [hcal]
    unfold jsRound
    have hlt : jsRound (max 0 (min 100 (specFunctional testResults + specQuality codeSource))) <
        101 := by
      unfold jsRound
      rw [Int.floor_lt]
      push_cast
      linarith
    unfold jsRound at hlt
    omega

theorem C3_score_formula_witness :
    calculateScore [] ("") = specScore [] ("") ∧
    0 ≤ calculateScore [] ("") ∧ calculateScore [] ("") ≤ 100 :=
  C3_score_formula [] ("") rfl

/-- C7: the Feedback Synthesizer returns the fixed compile-failure message
when the first result failed compilation; else the fixed congratulatory
message at score 100; else the space-separated concatenation of the hints
triggered, checked independently in the fixed order wrong-sum note, failed
validation scenario, missing loop keyword, missing positivity check; and
when no hint triggers, the score-banded generic message with bands at 80
and 60. -/
theorem C7_feedback (testResults : List ScenarioResult) (score : Int) (codeSource : String) :
    (firstCompilationFailed testResults = true →
      generateFeedback testResults score codeSource = compileFailMsg) ∧
    (firstCompilationFailed testResults = false → score = 100 →
      generateFeedback testResults score codeSource = perfectMsg) ∧
    (firstCompilationFailed testResults = false → score ≠ 100 →
      hintList testResults codeSource ≠ [] →
      generateFeedback testResults score codeSource =
        String.intercalate (" ") (hintList testResults codeSource)) ∧
    (firstCompilationFailed testResults = false → score ≠ 100 →
      hintList testResults codeSource = [] →
      generateFeedback testResults score codeSource = bandedMsg score ∧
      (80 ≤ score → bandedMsg score = band80) ∧
      (60 ≤ score → score < 80 → bandedMsg score = band60) ∧
      (score < 60 → bandedMsg score = bandLow)) := by
  refine ⟨?_, ?_, ?_, ?_⟩
  · intro h
    unfold generateFeedback
    rw [if_pos h]
  · intro h0 h100
    unfold generateFeedback
    rw [if_neg (by simp [h0]), if_pos h100]
  · intro h0 h100 hl
    unfold generateFeedback
    rw [if_neg (by simp [h0]), if_neg h100, if_neg hl]
  · intro h0 h100 hl
    refine ⟨?_, ?_, ?_, ?_⟩
    · unfold generateFeedback
      rw [if_neg (by simp [h0]), if_neg h100, if_pos hl]
    · intro hs
      unfold bandedMsg
      rw [if_pos hs]
    · intro h60 h80
      unfold bandedMsg
      rw [if_neg (by omega), if_pos h60]
    · intro h60
      unfold bandedMsg
      rw [if_neg (by omega), if_neg (by omega)]

theorem C7_feedback_witness :
    generateFeedback [] 100 ("") = perfectMsg ∧
    generateFeedback [] 50 ("") = String.intercalate (" ") (hintList [] ("")) ∧
    generateFeedback [] 70 ("for (;;) if (x > 0) x;") = bandedMsg 70 ∧
    generateFeedback
      [ { name := "t", input := "1\n", expectedSum := 1, points := 25
          isValidationTest := false, passed := false, reportedSum := none
          notes := "boom", compilationFailed := true } ] 0 ("") = compileFailMsg :=
  ⟨(C7_feedback [] 100 ("")).2.1 rfl rfl,
   (C7_feedback [] 50 ("")).2.2.1 rfl (by decide) (by decide),
   ((C7_feedback [] 70 ("for (;;) if (x > 0) x;")).2.2.2 rfl (by decide) (by decide)).1,
   (C7_feedback
      [ { name := "t", input := "1\n", expectedSum := 1, points := 25
          isValidationTest := false, passed := false, reportedSum := none
          notes := "boom", compilationFailed := true } ] 0 ("")).1 rfl⟩

theorem dropWhileEqConsIff (p : Char → Bool) (c : Char) (hc : p c = false) :
    ∀ (l r : List Char), l.dropWhile p = c :: r ↔
      ∃ ws, ws.all p = true ∧ l = ws ++ c :: r := by
  intro l
  induction l with
  | nil =>
    intro r
    constructor
    · intro h
      simp [List.dropWhile] at h
    · rintro ⟨ws, _, hl⟩
      exact absurd hl.symm (by simp)
  | cons a l ih =>
    intro r
    rw [List.dropWhile_cons]
    by_cases hp : p a
    · rw [if_pos hp]
      constructor
      · intro h
        obtain ⟨ws, hall, hl⟩ := (ih r).mp h
        exact ⟨a :: ws, by simp [List.all_cons, hp, hall], by rw [hl]; rfl⟩
      · rintro ⟨ws, hall, hl⟩
        cases ws with
        | nil =>
          exfalso
          injection hl with h1 _
          rw [h1] at hp
          rw [hp] at hc
          exact absurd hc (by simp)
        | cons w ws =>
          injection hl with _ h2
          rw [List.all_cons, Bool.and_eq_true] at hall
          exact (ih r).mpr ⟨ws, hall.2, h2⟩
    · rw [if_neg hp]
      constructor
      · intro h
        exact ⟨[], rfl, by rw [h]; rfl⟩
      · rintro ⟨ws, hall, hl⟩
        cases ws with
        | nil =>
          injection hl with h1 h2
          rw [h1, h2]
        | cons w ws =>
          exfalso
          injection hl with h1 _
          rw [List.all_cons, Bool.and_eq_true] at hall
          rw [← h1] at hall
          exact hp hall.1

theorem headIsIff (c : Char) : ∀ m : List Char, headIs c m = true ↔ ∃ r, m = c :: r := by
  intro m
  cases m with
  | nil => simp [headIs]
  | cons d ds =>
    simp only [headIs]
    constructor
    · intro h
      rw [show d = c from by simpa using h]
      exact ⟨ds, rfl⟩
    · rintro ⟨r, hr⟩
      injection hr with h1 _
      simp [h1]

theorem headIsDropSpacesIff (c : Char) (hc : isSpaceChar c = false) (l : List Char) :
    headIs c (dropSpaces l) = true ↔ ∃ sp r, allSpace sp = true ∧ l = sp ++ c :: r := by
  rw [headIsIff]
  constructor
  · rintro ⟨r, hr⟩
    obtain ⟨ws, hall, hl⟩ := (dropWhileEqConsIff isSpaceChar c hc l r).mp hr
    exact ⟨ws, r, hall, hl⟩
  · rintro ⟨sp, r, hsp, hl⟩
    exact ⟨r, (dropWhileEqConsIff isSpaceChar c hc l r).mpr ⟨sp, hsp, hl⟩⟩

theorem altLe0Iff (l : List Char) : altLe0 l = true ↔
    ∃ sp r, allSpace sp = true ∧ l = '<' :: '=' :: (sp ++ '0' :: r) := by
  constructor
  · intro h
    unfold altLe0 at h
    split at h
    · rename_i rest
      obtain ⟨sp, r, hsp, hrest⟩ := (headIsDropSpacesIff '0' (by decide) rest).mp h
      exact ⟨sp, r, hsp, by rw [hrest]⟩
    · exact absurd h (by simp)
  · rintro ⟨sp, r, hsp, rfl⟩
    unfold altLe0
    exact (headIsDropSpacesIff '0' (by decide) _).mpr ⟨sp, r, hsp, rfl⟩

theorem altLt1Iff (l : List Char) : altLt1 l = true ↔
    ∃ sp r, allSpace sp = true ∧ l = '<' :: (sp ++ '1' :: r) := by
  constructor
  · intro h
    unfold altLt1 at h
    split at h
    · rename_i rest
      obtain ⟨sp, r, hsp, hrest⟩ := (headIsDropSpacesIff '1' (by decide) rest).mp h
      exact ⟨sp, r, hsp, by rw [hrest]⟩
    · exact absurd h (by simp)
  · rintro ⟨sp, r, hsp, rfl⟩
    unfold altLt1
    exact (headIsDropSpacesIff '1' (by decide) _).mpr ⟨sp, r, hsp, rfl⟩

theorem altGt0Iff (l : List Char) : altGt0 l = true ↔
    ∃ sp r, allSpace sp = true ∧ l = '>' :: (sp ++ '0' :: r) := by
  constructor
  · intro h
    unfold altGt0 at h
    split at h
    · rename_i rest
      obtain ⟨sp, r, hsp, hrest⟩ := (headIsDropSpacesIff '0' (by decide) rest).mp h
      exact ⟨sp, r, hsp, by rw [hrest]⟩
    · exact absurd h (by simp)
  · rintro ⟨sp, r, hsp, rfl⟩
    unfold altGt0
    exact (headIsDropSpacesIff '0' (by decide) _).mpr ⟨sp, r, hsp, rfl⟩

theorem dropSpacesShape (l m : List Char) (c : Char) (hc : isSpaceChar c = false) :
    dropSpaces l = c :: m ↔ ∃ sp, allSpace sp = true ∧ l = sp ++ c :: m :=
  dropWhileEqConsIff isSpaceChar c hc l m

theorem altNumLe0Iff (l : List Char) : altNumLe0 l = true ↔
    ∃ sp1 sp2 r, allSpace sp1 = true ∧ allSpace sp2 = true ∧
      l = 'n' :: 'u' :: 'm' :: (sp1 ++ ('<' :: '=' :: (sp2 ++ '0' :: r))) := by
  constructor
  · intro h
    unfold altNumLe0 at h
    split at h
    · rename_i rest
      obtain ⟨sp2, r, hsp2, hdrop⟩ := (altLe0Iff (dropSpaces rest)).mp h
      obtain ⟨sp1, hsp1, hrest⟩ := (dropSpacesShape rest _ '<' (by decide)).mp hdrop
      exact ⟨sp1, sp2, r, hsp1, hsp2, by rw [hrest]⟩
    · exact absurd h (by simp)
  · rintro ⟨sp1, sp2, r, hsp1, hsp2, rfl⟩
    have hdrop : dropSpaces (sp1 ++ ('<' :: '=' :: (sp2 ++ '0' :: r))) =
        '<' :: '=' :: (sp2 ++ '0' :: r) :=
      (dropSpacesShape _ _ '<' (by decide)).mpr ⟨sp1, hsp1, rfl⟩
    show altLe0 (dropSpaces (sp1 ++ ('<' :: '=' :: (sp2 ++ '0' :: r)))) = true
    rw [hdrop]
    exact (altLe0Iff _).mpr ⟨sp2, r, hsp2, rfl⟩

theorem altNumLt1Iff (l : List Char) : altNumLt1 l = true ↔
    ∃ sp1 sp2 r, allSpace sp1 = true ∧ allSpace sp2 = true ∧
      l = 'n' :: 'u' :: 'm' :: (sp1 ++ ('<' :: (sp2 ++ '1' :: r))) := by
  constructor
  · intro h
    unfold altNumLt1 at h
    split at h
    · rename_i rest
      obtain ⟨sp2, r, hsp2, hdrop⟩ := (altLt1Iff (dropSpaces rest)).mp h
      obtain ⟨sp1, hsp1, hrest⟩ := (dropSpacesShape rest _ '<' (by decide)).mp hdrop
      exact ⟨sp1, sp2, r, hsp1, hsp2, by rw [hrest]⟩
    · exact absurd h (by simp)
  · rintro ⟨sp1, sp2, r, hsp1, hsp2, rfl⟩
    have hdrop : dropSpaces (sp1 ++ ('<' :: (sp2 ++ '1' :: r))) = '<' :: (sp2 ++ '1' :: r) :=
      (dropSpacesShape _ _ '<' (by decide)).mpr ⟨sp1, hsp1, rfl⟩
    show altLt1 (dropSpaces (sp1 ++ ('<' :: (sp2 ++ '1' :: r)))) = true
    rw [hdrop]
    exact (altLt1Iff _).mpr ⟨sp2, r, hsp2, rfl⟩

theorem scanBodyIff (altf : List Char → Bool) :
    ∀ l : List Char, scanBody altf l = true ↔
      ∃ mid r, noClose mid = true ∧ altf r = true ∧ l = mid ++ r := by
  intro l
  induction l with
  | nil =>
    simp only [scanBody]
    constructor
    · intro h
      exact ⟨[], [], rfl, h, rfl⟩
    · rintro ⟨mid, r, _, haltf, heq⟩
      obtain ⟨hm, hr⟩ := List.append_eq_nil.mp heq.symm
      rw [hr] at haltf
      exact haltf
  | cons c rest ih =>
    simp only [scanBody, Bool.or_eq_true, Bool.and_eq_true]
    constructor
    · intro h
      rcases h with h | ⟨hne, hsb⟩
      · exact ⟨[], c :: rest, rfl, h, rfl⟩
      · obtain ⟨mid, r, hnc, haltf, heq⟩ := ih.mp hsb
        refine ⟨c :: mid, r, ?_, haltf, by rw [heq]; rfl⟩
        rw [noClose, List.all_cons, Bool.and_eq_true]
        exact ⟨hne, hnc⟩
    · rintro ⟨mid, r, hnc, haltf, heq⟩
      cases mid with
      | nil =>
        left
        rw [show c :: rest = r from heq]
        exact haltf
      | cons m ms =>
        right
        injection heq with h1 h2
        rw [noClose, List.all_cons, Bool.and_eq_true] at hnc
        constructor
        · rw [h1]
          exact hnc.1
        · exact ih.mpr ⟨ms, r, hnc.2, haltf, h2⟩

theorem afterIfIff (altf : List Char → Bool) (l : List Char) :
    afterIf altf l = true ↔
      ∃ ws r, allSpace ws = true ∧ scanBody altf r = true ∧ l = ws ++ '(' :: r := by
  constructor
  · intro h
    unfold afterIf at h
    split at h
    · rename_i rest heq
      obtain ⟨ws, hws, hl⟩ := (dropSpacesShape l rest '(' (by decide)).mp heq
      exact ⟨ws, rest, hws, h, hl⟩
    · exact absurd h (by simp)
  · rintro ⟨ws, r, hws, hsb, rfl⟩
    unfold afterIf
    rw [(dropSpacesShape _ r '(' (by decide)).mpr ⟨ws, hws, rfl⟩]
    exact hsb

theorem ifTailIff (altf : List Char → Bool) (m : List Char) :
    ifTail altf m = true ↔ ∃ r2, m = 'f' :: r2 ∧ afterIf altf r2 = true := by
  constructor
  · intro h
    unfold ifTail at h
    split at h
    · rename_i r2
      exact ⟨r2, rfl, h⟩
    · exact absurd h (by simp)
  · rintro ⟨r2, rfl, ha⟩
    exact ha

theorem scanIfIff (altf : List Char → Bool) :
    ∀ (l : List Char) (prev : Option Char), scanIf altf prev l = true ↔
      ∃ a b, boundaryAt prev a ∧ afterIf altf b = true ∧ l = a ++ 'i' :: 'f' :: b := by
  intro l
  induction l with
  | nil =>
    intro prev
    constructor
    · intro h
      simp [scanIf] at h
    · rintro ⟨a, b, _, _, heq⟩
      exact absurd heq.symm (by simp)
  | cons c rest ih =>
    intro prev
    simp only [scanIf, Bool.or_eq_true, Bool.and_eq_true]
    constructor
    · intro h
      rcases h with ⟨⟨hci, hfw⟩, htail⟩ | h2
      · have hc : c = 'i' := by simpa using hci
        obtain ⟨r2, hrest, ha⟩ := (ifTailIff altf rest).mp htail
        refine ⟨[], r2, ⟨fun x hx => by simp at hx, fun _ => hfw⟩, ha, ?_⟩
        rw [hc, hrest]
        rfl
      · obtain ⟨a, b, hbd, ha, heq⟩ := (ih (some c)).mp h2
        refine ⟨c :: a, b, ?_, ha, by rw [heq]; rfl⟩
        cases a with
        | nil =>
          refine ⟨?_, ?_⟩
          · intro x hx
            rw [List.getLast?_singleton] at hx
            injection hx with hx
            subst hx
            have hfc := hbd.2 rfl
            simpa [freshWord] using hfc
          · intro hx
            simp at hx
        | cons y ys =>
          refine ⟨?_, ?_⟩
          · intro x hx
            rw [List.getLast?_cons_cons] at hx
            exact hbd.1 x hx
          · intro hx
            rw [List.getLast?_cons_cons] at hx
            exact absurd (List.getLast?_eq_none_iff.mp hx) (by simp)
    · rintro ⟨a, b, hbd, ha, heq⟩
      cases a with
      | nil =>
        left
        injection heq with h1 h2
        refine ⟨⟨by simp [h1], hbd.2 rfl⟩, ?_⟩
        rw [h2]
        exact (ifTailIff altf _).mpr ⟨b, rfl, ha⟩
      | cons y ys =>
        right
        injection heq with h1 h2
        refine (ih (some c)).mpr ⟨ys, b, ?_, ha, h2⟩
        cases ys with
        | nil =>
          refine ⟨fun x hx => by simp at hx, fun _ => ?_⟩
          have hw := hbd.1 y (by simp)
          rw [h1]
          simp [freshWord, hw]
        | cons z zs =>
          refine ⟨fun x hx => ?_, fun hx => ?_⟩
          · refine hbd.1 x ?_
            rw [List.getLast?_cons_cons]
            exact hx
          · exact absurd (List.getLast?_eq_none_iff.mp hx) (by simp)

theorem allSpaceNoClose (l : List Char) (h : allSpace l = true) : noClose l = true := by
  rw [noClose, List.all_eq_true]
  rw [allSpace, List.all_eq_true] at h
  intro x hx
  have hs := h x hx
  have hne : x ≠ ')' := by
    intro hx'
    rw [hx'] at hs
    exact absurd hs (by decide)
  simpa using hne

theorem hasPositiveCheckIff (src : String) :
    hasPositiveCheck src = true ↔ GuardMatch src.data := by
  unfold hasPositiveCheck
  rw [Bool.or_eq_true]
  constructor
  · intro h
    rcases h with h | h
    · obtain ⟨a, b, hbd, ha, heq⟩ := (scanIfIff alt1 src.data none).mp h
      obtain ⟨ws, r, hws, hsb, rfl⟩ := (afterIfIff alt1 b).mp ha
      obtain ⟨mid, t, hnc, halt, rfl⟩ := (scanBodyIff alt1 r).mp hsb
      rw [alt1, Bool.or_eq_true, Bool.or_eq_true, Bool.or_eq_true] at halt
      rcases halt with ((h1 | h2) | h3) | h4
      · obtain ⟨sp, rest, hsp, rfl⟩ := (altLe0Iff t).mp h1
        exact ⟨a, ws, mid, _, hbd.1, hws, hnc, Or.inl ⟨sp, rest, hsp, rfl⟩, heq⟩
      · obtain ⟨sp, rest, hsp, rfl⟩ := (altLt1Iff t).mp h2
        exact ⟨a, ws, mid, _, hbd.1, hws, hnc, Or.inr (Or.inl ⟨sp, rest, hsp, rfl⟩), heq⟩
      · obtain ⟨sp1, sp2, rest, hsp1, hsp2, rfl⟩ := (altNumLe0Iff t).mp h3
        refine ⟨a, ws, mid ++ ('n' :: 'u' :: 'm' :: sp1), '<' :: '=' :: (sp2 ++ '0' :: rest),
          hbd.1, hws, ?_, Or.inl ⟨sp2, rest, hsp2, rfl⟩, ?_⟩
        · rw [noClose, List.all_append, Bool.and_eq_true]
          refine ⟨hnc, ?_⟩
          rw [List.all_cons, List.all_cons, List.all_cons]
          simp only [Bool.and_eq_true]
          exact ⟨by decide, by decide, by decide, allSpaceNoClose sp1 hsp1⟩
        · rw [heq]
          simp [List.append_assoc]
      · obtain ⟨sp1, sp2, rest, hsp1, hsp2, rfl⟩ := (altNumLt1Iff t).mp h4
        refine ⟨a, ws, mid ++ ('n' :: 'u' :: 'm' :: sp1), '<' :: (sp2 ++ '1' :: rest),
          hbd.1, hws, ?_, Or.inr (Or.inl ⟨sp2, rest, hsp2, rfl⟩), ?_⟩
        · rw [noClose, List.all_append, Bool.and_eq_true]
          refine ⟨hnc, ?_⟩
          rw [List.all_cons, List.all_cons, List.all_cons]
          simp only [Bool.and_eq_true]
          exact ⟨by decide, by decide, by decide, allSpaceNoClose sp1 hsp1⟩
        · rw [heq]
          simp [List.append_assoc]
    · obtain ⟨a, b, hbd, ha, heq⟩ := (scanIfIff altGt0 src.data none).mp h
      obtain ⟨ws, r, hws, hsb, rfl⟩ := (afterIfIff altGt0 b).mp ha
      obtain ⟨mid, t, hnc, halt, rfl⟩ := (scanBodyIff altGt0 r).mp hsb
      obtain ⟨sp, rest, hsp, rfl⟩ := (altGt0Iff t).mp halt
      exact ⟨a, ws, mid, _, hbd.1, hws, hnc, Or.inr (Or.inr ⟨sp, rest, hsp, rfl⟩), heq⟩
  · rintro ⟨pre, ws, mid, tail, hb, hws, hnc, halt, heq⟩
    rcases halt with ⟨sp, rest, hsp, rfl⟩ | ⟨sp, rest, hsp, rfl⟩ | ⟨sp, rest, hsp, rfl⟩
    · left
      refine (scanIfIff alt1 src.data none).mpr
        ⟨pre, ws ++ '(' :: (mid ++ ('<' :: '=' :: (sp ++ '0' :: rest))), ⟨hb, fun _ => rfl⟩,
          ?_, heq⟩
      refine (afterIfIff alt1 _).mpr ⟨ws, mid ++ ('<' :: '=' :: (sp ++ '0' :: rest)), hws, ?_, rfl⟩
      refine (scanBodyIff alt1 _).mpr ⟨mid, ('<' :: '=' :: (sp ++ '0' :: rest)), hnc, ?_, rfl⟩
      rw [alt1, Bool.or_eq_true, Bool.or_eq_true, Bool.or_eq_true]
      exact Or.inl (Or.inl (Or.inl ((altLe0Iff _).mpr ⟨sp, rest, hsp, rfl⟩)))
    · left
      refine (scanIfIff alt1 src.data none).mpr
        ⟨pre, ws ++ '(' :: (mid ++ ('<' :: (sp ++ '1' :: rest))), ⟨hb, fun _ => rfl⟩, ?_, heq⟩
      refine (afterIfIff alt1 _).mpr ⟨ws, mid ++ ('<' :: (sp ++ '1' :: rest)), hws, ?_, rfl⟩
      refine (scanBodyIff alt1 _).mpr ⟨mid, ('<' :: (sp ++ '1' :: rest)), hnc, ?_, rfl⟩
      rw [alt1, Bool.or_eq_true, Bool.or_eq_true, Bool.or_eq_true]
      exact Or.inl (Or.inl (Or.inr ((altLt1Iff _).mpr ⟨sp, rest, hsp, rfl⟩)))
    · right
      refine (scanIfIff altGt0 src.data none).mpr
        ⟨pre, ws ++ '(' :: (mid ++ ('>' :: (sp ++ '0' :: rest))), ⟨hb, fun _ => rfl⟩, ?_, heq⟩
      refine (afterIfIff altGt0 _).mpr ⟨ws, mid ++ ('>' :: (sp ++ '0' :: rest)), hws, ?_, rfl⟩
      refine (scanBodyIff altGt0 _).mpr ⟨mid, ('>' :: (sp ++ '0' :: rest)), hnc, ?_, rfl⟩
      exact (altGt0Iff _).mpr ⟨sp, rest, hsp, rfl⟩

/-- C8 (amended): the 10-point positivity deduction is applied exactly when
the source matches neither of the two patterns actually implemented: an if
at a word boundary, optional spaces, an opening parenthesis and then,
before any closing parenthesis, one of less-equal-spaces-zero,
less-than-spaces-one or greater-than-spaces-zero (GuardMatch).  Comparisons
such as greater-than one, less-than zero or less-equal one are not
recognized and do receive the deduction. -/
theorem C8_guard_heuristic (codeSource : String) :
    (hasPositiveCheck codeSource = true ↔ GuardMatch codeSource.data) ∧
    (GuardMatch codeSource.data →
      qualityScoreInt codeSource = if hasLoop codeSource then 20 else 10) ∧
    (¬ GuardMatch codeSource.data →
      qualityScoreInt codeSource = if hasLoop codeSource then 10 else 0) := by
  have hiff := hasPositiveCheckIff codeSource
  refine ⟨hiff, ?_, ?_⟩
  · intro hg
    have hpc : hasPositiveCheck codeSource = true := hiff.mpr hg
    by_cases h1 : hasLoop codeSource <;> simp [qualityScoreInt, h1, hpc]
  · intro hg
    have hpc : hasPositiveCheck codeSource = false := by
      cases hb : hasPositiveCheck codeSource
      · rfl
      · exact absurd (hiff.mp hb) hg
    by_cases h1 : hasLoop codeSource <;> simp [qualityScoreInt, h1, hpc]

theorem C8_guard_heuristic_witness :
    hasPositiveCheck srcWithGuard = true ∧ qualityScoreInt srcWithGuard = 10 := by
  have hg : GuardMatch srcWithGuard.data := by
    refine ⟨[], [' '], ['x', ' '],
      '>' :: ([' '] ++ '0' :: [')', ' ', 'y', ' ', '=', ' ', '2', ';']), ?_, by decide,
      by decide, ?_, by decide⟩
    · intro c hc
      simp at hc
    · exact Or.inr (Or.inr ⟨[' '], [')', ' ', 'y', ' ', '=', ' ', '2', ';'], by decide, rfl⟩)
  have h := C8_guard_heuristic srcWithGuard
  refine ⟨h.1.mpr hg, ?_⟩
  rw [h.2.1 hg]
  rw [show hasLoop srcWithGuard = false from by decide]
  simp

/-- C8 counterexample: the source text comparing a value against 1 with a
greater-than sign satisfies the claimed condition (a conditional test
against 0 or 1 using less-equal, less-than or greater-than), yet the
implemented heuristic rejects it and the deduction is applied: the quality
component is 0 rather than the 10 the claim would give. -/
theorem C8_counterexample :
    ClaimGuard srcNoGuard.data ∧ hasPositiveCheck srcNoGuard = false ∧
    qualityScoreInt srcNoGuard = 0 := by
  refine ⟨?_, by decide, by decide⟩
  refine ⟨[], [' '], ['x', ' '], ['>'], [' '], '1', [')', ' ', 'y', ' ', '=', ' ', '2', ';'],
    ?_, by decide, by decide, ?_, by decide, ?_, by decide⟩
  · intro c hc
    simp at hc
  · exact Or.inr (Or.inr rfl)
  · exact Or.inr rfl

end Grader
